import Mathlib

/-!
Shallow embedding of the client/user metadata cache-and-consistency engine of
the shortbot repository, together with proofs settling the frozen claims.

Embedded sources:
- src/bot-core/src/users/subscriptions.rs      (Subscriptions, its constructors, Display)
- src/src/users/client_meta.rs                 (ClientMeta and its field defaults)
- src/clientlib/src/client/client_handler.rs   (ClientHandler operations)
- src/clientlib/src/cache/cache_handler.rs     (CacheHandlerCmd parsing, process_queue,
                                                update_db_entry)
- src/clientlib/src/lib.rs                     (BotAccess, ClientError, ClientObjectsBuilder)

Modelling conventions:
- Rust strings are modelled as `List Char`; `str::len()` (a UTF-8 byte count) is
  modelled by summing `Char.utf8Size` over the characters.
- `HashSet<String>` is modelled as `Finset (List Char)`; the unspecified iteration
  order of the hash set is modelled by enumerating the finset in the lexicographic
  order of `List.instLinearOrder` (one fixed arbitrary order).
- The sharded concurrent map `ShardMap<UserId, ClientMeta>` plus the side list of
  keys plus the MySQL `BotClient` table plus the mpsc maintenance channel are
  modelled together as one explicit state record `SysState`, threaded through
  every operation.  Store (DB) round-trips are modelled as always succeeding: the
  durable store is an external collaborator whose own failures are out of scope.
  The bounded best-effort channel send is modelled as an always-accepting append.
- Timestamps (`chrono::DateTime<Utc>`) are abstract instants, modelled as `Int`;
  operations that read the clock receive the current instant as a parameter.
-/

/-- `type UserId = u64` (src/clientlib/src/lib.rs). Machine width is irrelevant to the
claims, so the id is a plain natural number. -/
abbrev UserId := Nat

/-- Abstract instant standing for `chrono::DateTime<Utc>`. -/
abbrev Timestamp := Int

instance {ε α : Type} [DecidableEq ε] [DecidableEq α] : DecidableEq (Except ε α) := fun a b =>
  match a, b with
  | .ok x, .ok y => decidable_of_iff (x = y) (by simp)
  | .error x, .error y => decidable_of_iff (x = y) (by simp)
  | .ok _, .error _ => isFalse (by simp)
  | .error _, .ok _ => isFalse (by simp)

/-- `enum BotAccess { Free, Limited, Unlimited, Admin }` with `Free` the default
(src/clientlib/src/lib.rs). -/
inductive BotAccess
  | Free
  | Limited
  | Unlimited
  | Admin
deriving DecidableEq, Repr

/-- `Default` derive for `BotAccess`: the `#[default]` variant is `Free`. -/
def BotAccess.default : BotAccess := .Free

/-- `enum ClientError` (src/clientlib/src/lib.rs, plus the variants used by
client_handler.rs and cache_handler.rs: `ClientNotRegistered`, `CacheIncongruence`). -/
inductive ClientError
  | WrongSubscriptionString (s : List Char)
  | UnknownDbError (s : List Char)
  | ClientNotRegistered
  | CacheIncongruence
deriving DecidableEq, Repr

/-- Rust `str::split(sep)` for a one-character separator: the list of (possibly
empty) segments between occurrences of `sep`.  On the empty string it yields one
empty segment, exactly as Rust does. -/
def splitOnSep (sep : Char) : List Char → List (List Char)
  | [] => [[]]
  | c :: cs =>
    if c = sep then
      [] :: splitOnSep sep cs
    else
      match splitOnSep sep cs with
      | r :: rs => (c :: r) :: rs
      | [] => [[c]]

/-- `Vec::join(sep)` for a one-character separator. -/
def joinWithSep (sep : Char) : List (List Char) → List Char
  | [] => []
  | x :: xs =>
    match xs with
    | [] => x
    | _ :: _ => x ++ sep :: joinWithSep sep xs

/-- UTF-8 byte length of a string, i.e. Rust `str::len()`. -/
def utf8Len (s : List Char) : Nat := (s.map Char.utf8Size).sum

/-- `const CHARS_PER_TICKER: u8 = 4` (src/bot-core/src/users/subscriptions.rs).
Despite the name, the code compares it against `str::len()`, a byte count. -/
def CHARS_PER_TICKER : Nat := 4

/-- `struct Subscriptions { tickers: HashSet<String> }`
(src/bot-core/src/users/subscriptions.rs). -/
structure Subscriptions where
  tickers : Finset (List Char)
deriving DecidableEq

/-- `Default` derive for `Subscriptions`: the empty set. -/
def Subscriptions.default : Subscriptions := ⟨∅⟩

/-- `impl AddAssign for Subscriptions`: insert every element of the right-hand
side into the left-hand side, i.e. set union. -/
def Subscriptions.addAssign (a b : Subscriptions) : Subscriptions :=
  ⟨a.tickers ∪ b.tickers⟩

/-- `impl SubAssign for Subscriptions`: remove every element of the right-hand
side from the left-hand side, i.e. set difference. -/
def Subscriptions.subAssign (a b : Subscriptions) : Subscriptions :=
  ⟨a.tickers \ b.tickers⟩

/-- `Subscriptions::is_empty`. -/
def Subscriptions.isEmpty (a : Subscriptions) : Bool := a.tickers = ∅

/-- The element-collection step shared by both fallible constructors: each token
longer than `CHARS_PER_TICKER` bytes aborts the whole construction with
`WrongSubscriptionString` carrying `errPayload token` (the two Rust constructors
put different data in the error); otherwise the tokens are collected into the
hash set, duplicates collapsing. -/
def collectTickers (errPayload : List Char → List Char) :
    List (List Char) → Except ClientError (Finset (List Char))
  | [] => .ok ∅
  | c :: rest =>
    if utf8Len c > CHARS_PER_TICKER then
      .error (.WrongSubscriptionString (errPayload c))
    else
      match collectTickers errPayload rest with
      | .ok s => .ok (insert c s)
      | .error e => .error e

/-- `impl TryFrom<&str> for Subscriptions`: split the raw string on `;`, fail with
a format error carrying the whole input if any segment exceeds the byte limit,
otherwise collect the segments into the set. -/
def Subscriptions.tryFromStr (value : List Char) : Except ClientError Subscriptions :=
  match collectTickers (fun _ => value) (splitOnSep ';' value) with
  | .ok s => .ok ⟨s⟩
  | .error e => .error e

/-- `impl TryFrom<&[&str]> for Subscriptions`: fail with a format error carrying
the offending token if any element exceeds the byte limit, otherwise collect the
elements into the set. -/
def Subscriptions.tryFromSlice (value : List (List Char)) : Except ClientError Subscriptions :=
  match collectTickers (fun c => c) value with
  | .ok s => .ok ⟨s⟩
  | .error e => .error e

/-- `impl Display for Subscriptions`: the elements joined by `;` in whatever
order the underlying set yields; the model enumerates the finset in one fixed
(lexicographic) order, standing for the hash set's arbitrary order. -/
def Subscriptions.toStr (a : Subscriptions) : List Char :=
  joinWithSep ';' (a.tickers.sort (· ≤ ·))

/-- `struct ClientMeta` (src/src/users/client_meta.rs). -/
structure ClientMeta where
  registered : Bool
  access_level : BotAccess
  subscriptions : Option Subscriptions
  last_access : Option Timestamp
  last_update : Option Timestamp
  created_at : Option Timestamp
deriving DecidableEq

/-- `Default` derive for `ClientMeta`: unregistered, `Free` access, no
subscriptions, no timestamps. -/
def ClientMeta.default : ClientMeta :=
  { registered := false
    access_level := BotAccess.default
    subscriptions := none
    last_access := none
    last_update := none
    created_at := none }

/-- One row of the MySQL `BotClient` table (columns besides the primary key
`id`), in the column order used by the INSERT/UPDATE statements of
client_handler.rs and cache_handler.rs. -/
structure DbRow where
  registered : Bool
  access : List Char
  subscriptions : Option (List Char)
  created_at : Option Timestamp
  last_access : Option Timestamp
deriving DecidableEq

/-- `impl Display for BotAccess`: the stable lowercase string mapping. -/
def BotAccess.toStr : BotAccess → List Char
  | .Free => "free".toList
  | .Limited => "limited".toList
  | .Unlimited => "unlimited".toList
  | .Admin => "admin".toList

/-- Whole-system state: the sharded map (`Cache.data`) as an association list,
the side key list (`Cache.clients`), the `BotClient` table rows, a ghost log of
the ids written by `update_db_entry` (instrumentation recording each store
flush), the pending maintenance-channel messages, and the cache handler's
batched `update_queue`. -/
structure SysState where
  cacheData : List (UserId × ClientMeta)
  clients : List UserId
  dbRows : List (UserId × DbRow)
  dbLog : List UserId
  channel : List (List Char)
  update_queue : List UserId
deriving DecidableEq

/-- `ShardMap::get`: look a key up in the map. -/
def cacheGet (d : List (UserId × ClientMeta)) (id : UserId) : Option ClientMeta :=
  match d with
  | [] => none
  | p :: rest => if p.1 = id then some p.2 else cacheGet rest id

/-- `ShardMap::insert`: bind the key to the record, replacing any previous
binding. -/
def cacheInsert (d : List (UserId × ClientMeta)) (id : UserId) (m : ClientMeta) :
    List (UserId × ClientMeta) :=
  (id, m) :: d.filter (fun p => ¬(p.1 = id))

/-- In-place mutation through `ShardMap::get_mut`: overwrite the record bound to
a key that is already present, leaving everything else in place. -/
def cacheSet (d : List (UserId × ClientMeta)) (id : UserId) (m : ClientMeta) :
    List (UserId × ClientMeta) :=
  d.map (fun p => if p.1 = id then (id, m) else p)

/-- Look a row up in the `BotClient` table. -/
def dbGet (rows : List (UserId × DbRow)) (id : UserId) : Option DbRow :=
  match rows with
  | [] => none
  | p :: rest => if p.1 = id then some p.2 else dbGet rest id

/-- Decimal rendering of a user id, as produced by Rust's `format!`. -/
def decimalRepr (id : UserId) : List Char := (Nat.repr id).toList

/-- The maintenance message `format!("update:{}", client_id.0)` sent by
`ClientHandler::notify_cache_handler`. -/
def updateMsg (id : UserId) : List Char := "update:".toList ++ decimalRepr id

/-- `ClientHandler::notify_cache_handler`: the timeout-bounded best-effort send,
modelled as an always-accepting append to the pending-message queue. -/
def notify_cache_handler (st : SysState) (id : UserId) : SysState :=
  { st with channel := st.channel ++ [updateMsg id] }

/-- The row written by `ClientHandler::db_register_client(client_id, auto_register)`:
`INSERT INTO BotClient VALUES (?, !auto_register, "free", NULL, CURRENT_TIMESTAMP(), NULL)`. -/
def registerRow (auto_register : Bool) (now : Timestamp) : DbRow :=
  { registered := !auto_register
    access := BotAccess.toStr .Free
    subscriptions := none
    created_at := some now
    last_access := none }

/-- `ClientHandler::db_register_client`: append the freshly inserted row to the
table (store failures, including duplicate-key rejections, are out of the model:
the store collaborator always succeeds). -/
def db_register_client (st : SysState) (now : Timestamp) (id : UserId)
    (auto_register : Bool) : SysState :=
  { st with dbRows := st.dbRows ++ [(id, registerRow auto_register now)] }

/-- `ClientHandler::access_level`: the cached record's tier, or `Free` when the
id is absent.  The state is returned so the theorems can speak about the
(absent) side effects. -/
def access_level (st : SysState) (id : UserId) :
    Except ClientError BotAccess × SysState :=
  match cacheGet st.cacheData id with
  | some metadata => (.ok metadata.access_level, st)
  | none => (.ok .Free, st)

/-- `ClientHandler::is_registered`: cached hit returns the `registered` flag;
a miss lazily soft-registers the id (durable insert with `auto_register = true`,
default cache record, maintenance notification, key-list append) and returns
`false`. -/
def is_registered (st : SysState) (now : Timestamp) (id : UserId) :
    Except ClientError Bool × SysState :=
  match cacheGet st.cacheData id with
  | some metadata => (.ok metadata.registered, st)
  | none =>
    let st := db_register_client st now id true
    let st := { st with cacheData := cacheInsert st.cacheData id ClientMeta.default }
    let st := notify_cache_handler st id
    let st := { st with clients := st.clients ++ [id] }
    (.ok false, st)

/-- `ClientHandler::subscriptions`: the cached record's optional subscription
set, or `ClientNotRegistered` when the id is absent. -/
def subscriptionsOf (st : SysState) (id : UserId) :
    Except ClientError (Option Subscriptions) × SysState :=
  match cacheGet st.cacheData id with
  | some metadata => (.ok metadata.subscriptions, st)
  | none => (.error .ClientNotRegistered, st)

/-- `ClientHandler::add_subscriptions`: absent id fails with
`ClientNotRegistered`; a record with no subscription set receives the given set
and a maintenance notification is sent; a record with an existing set is
mutated with `+=` (set union) — and, as in the source, no notification is sent
on that branch. -/
def add_subscriptions (st : SysState) (id : UserId) (subscriptions : Subscriptions) :
    Except ClientError Unit × SysState :=
  match cacheGet st.cacheData id with
  | some metadata =>
    match metadata.subscriptions with
    | none =>
      let meta' := { metadata with subscriptions := some subscriptions }
      let st := { st with cacheData := cacheSet st.cacheData id meta' }
      let st := notify_cache_handler st id
      (.ok (), st)
    | some s =>
      let meta' := { metadata with subscriptions := some (s.addAssign subscriptions) }
      let st := { st with cacheData := cacheSet st.cacheData id meta' }
      (.ok (), st)
  | none => (.error .ClientNotRegistered, st)

/-- `ClientHandler::remove_subscriptions`: absent id fails with
`ClientNotRegistered`; a record whose subscription field is `None` is left
untouched (only a warning is logged) and the call still succeeds; otherwise the
set is mutated with `-=` (set difference), an emptied set collapses back to
`None`, and a maintenance notification is sent. -/
def remove_subscriptions (st : SysState) (id : UserId) (subscriptions : Subscriptions) :
    Except ClientError Unit × SysState :=
  match cacheGet st.cacheData id with
  | some metadata =>
    match metadata.subscriptions with
    | none => (.ok (), st)
    | some s =>
      let subs := s.subAssign subscriptions
      let newSubs := if subs.isEmpty then none else some subs
      let meta' := { metadata with subscriptions := newSubs }
      let st := { st with cacheData := cacheSet st.cacheData id meta' }
      let st := notify_cache_handler st id
      (.ok (), st)
  | none => (.error .ClientNotRegistered, st)

/-- `enum CacheHandlerCmd` (src/clientlib/src/cache/cache_handler.rs). -/
inductive CacheHandlerCmd
  | Ping
  | Update (payload : List Char)
  | Save
  | Load
  | Stop
deriving DecidableEq, Repr

/-- `impl From<String> for CacheHandlerCmd`: split the message on `:`; the verb
is segment 0 and the payload, when the split produced more than one segment, is
segment 1; `"ping"` maps to `Ping`, `"update"` to `Update(payload or "")`, and
every other verb falls to `Stop`. -/
def cacheHandlerCmdFrom (value : List Char) : CacheHandlerCmd :=
  let raw_cmd := splitOnSep ':' value
  let cmd := raw_cmd.headD []
  let payload : Option (List Char) :=
    if raw_cmd.length > 1 then some (raw_cmd.getD 1 []) else none
  if cmd = "ping".toList then .Ping
  else if cmd = "update".toList then .Update (payload.getD [])
  else .Stop

/-- `CacheHandler::update_db_entry`: `UPDATE BotClient SET registered, access,
subscriptions, created_at, last_access WHERE id`, with `last_access` written
from `new_data.last_update` as in the source; the flushed id is also appended to
the ghost write log. -/
def update_db_entry (st : SysState) (client_id : UserId) (new_data : ClientMeta) :
    SysState :=
  { st with
    dbRows := st.dbRows.map (fun p =>
      if p.1 = client_id then
        (client_id,
          { registered := new_data.registered
            access := new_data.access_level.toStr
            subscriptions := new_data.subscriptions.map Subscriptions.toStr
            created_at := new_data.created_at
            last_access := new_data.last_update })
      else p)
    dbLog := st.dbLog ++ [client_id] }

/-- The flush loop of `CacheHandler::process_queue`: write each drained id's
current cache record through to the store, stopping with `CacheIncongruence` at
the first id with no cache entry. -/
def flushList (st : SysState) : List UserId → Except ClientError Unit × SysState
  | [] => (.ok (), st)
  | item :: rest =>
    match cacheGet st.cacheData item with
    | some meta => flushList (update_db_entry st item meta) rest
    | none => (.error .CacheIncongruence, st)

/-- `CacheHandler::process_queue`: under the queue lock, clone the queue and
clear it, then flush the drained ids.  Pushes racing with the flush can only
land in the emptied queue; the model exposes them as the `arrivals` parameter,
which becomes the new queue content while the drained snapshot is flushed. -/
def process_queue (st : SysState) (arrivals : List UserId) :
    Except ClientError Unit × SysState :=
  let update_list := st.update_queue
  let st := { st with update_queue := arrivals }
  flushList st update_list

/-- `const DEFAULT_CACHE_EXPIRICY: Duration = Duration::days(1)`
(src/clientlib/src/lib.rs), expressed in minutes. -/
def DEFAULT_CACHE_EXPIRICY : Int := 1440

/-- The configuration fields of `struct ClientObjectsBuilder`
(src/clientlib/src/lib.rs); durations are in minutes. -/
structure ClientObjectsBuilder where
  cache_expiricy : Option Int
  shards : Option Nat
  channel_size : Option Nat
  cache_queue_size : Nat
deriving DecidableEq

/-- `ClientObjectsBuilder::new`: every optional field starts unset. -/
def ClientObjectsBuilder.new : ClientObjectsBuilder :=
  { cache_expiricy := none, shards := none, channel_size := none, cache_queue_size := 0 }

/-- The staleness window `ClientObjectsBuilder::build` hands to the client
handler: `self.cache_expiricy.unwrap_or(DEFAULT_CACHE_EXPIRICY)` — the
configured value passes through unchanged, with no floor applied. -/
def buildCacheExpiricy (b : ClientObjectsBuilder) : Int :=
  b.cache_expiricy.getD DEFAULT_CACHE_EXPIRICY

/-! ### Helper lemmas -/

/-- Splitting a separator-free string yields that single segment. -/
theorem splitOnSep_of_not_mem (sep : Char) (x : List Char) (h : sep ∉ x) :
    splitOnSep sep x = [x] := by
  induction x with
  | nil => rfl
  | cons c cs ih =>
    have hc : ¬(c = sep) := fun hceq => h (hceq ▸ List.mem_cons_self c cs)
    have hcs : sep ∉ cs := fun hmem => h (List.mem_cons_of_mem c hmem)
    simp only [splitOnSep, if_neg hc, ih hcs]

/-- Splitting peels off a separator-free first segment. -/
theorem splitOnSep_append (sep : Char) (x r : List Char) (h : sep ∉ x) :
    splitOnSep sep (x ++ sep :: r) = x :: splitOnSep sep r := by
  induction x with
  | nil => simp [splitOnSep]
  | cons c cs ih =>
    have hc : ¬(c = sep) := fun hceq => h (hceq ▸ List.mem_cons_self c cs)
    have hcs : sep ∉ cs := fun hmem => h (List.mem_cons_of_mem c hmem)
    show splitOnSep sep (c :: (cs ++ sep :: r)) = (c :: cs) :: splitOnSep sep r
    simp only [splitOnSep, if_neg hc]
    rw [ih hcs]

/-- Splitting the join of a nonempty list of separator-free segments recovers
the segments. -/
theorem splitOnSep_joinWithSep (sep : Char) (l : List (List Char)) (hne : l ≠ [])
    (h : ∀ x ∈ l, sep ∉ x) : splitOnSep sep (joinWithSep sep l) = l := by
  induction l with
  | nil => exact absurd rfl hne
  | cons x xs ih =>
    match xs with
    | [] =>
      simpa [joinWithSep] using splitOnSep_of_not_mem sep x (h x (List.mem_cons_self x []))
    | y :: ys =>
      have hx : sep ∉ x := h x (List.mem_cons_self x (y :: ys))
      have hrest : ∀ z ∈ y :: ys, sep ∉ z := fun z hz => h z (List.mem_cons_of_mem x hz)
      calc splitOnSep sep (joinWithSep sep (x :: y :: ys))
          = splitOnSep sep (x ++ sep :: joinWithSep sep (y :: ys)) := by
            simp only [joinWithSep]
        _ = x :: splitOnSep sep (joinWithSep sep (y :: ys)) := splitOnSep_append sep _ _ hx
        _ = x :: (y :: ys) := by rw [ih (by simp) hrest]

/-- Collecting tokens that all satisfy the byte limit succeeds with the set of
tokens (duplicates collapsing). -/
theorem collectTickers_ok (f : List Char → List Char) (l : List (List Char))
    (h : ∀ c ∈ l, utf8Len c ≤ CHARS_PER_TICKER) :
    collectTickers f l = .ok l.toFinset := by
  induction l with
  | nil => rfl
  | cons c rest ih =>
    have hc : ¬(utf8Len c > CHARS_PER_TICKER) :=
      not_lt_of_le (h c (List.mem_cons_self c rest))
    have hrest : ∀ x ∈ rest, utf8Len x ≤ CHARS_PER_TICKER :=
      fun x hx => h x (List.mem_cons_of_mem c hx)
    simp only [collectTickers, if_neg hc, ih hrest, List.toFinset_cons]

/-- Collecting tokens fails with the format error of some over-long token as
soon as one token exceeds the byte limit. -/
theorem collectTickers_error (f : List Char → List Char) (l : List (List Char))
    (h : ∃ c ∈ l, utf8Len c > CHARS_PER_TICKER) :
    ∃ c ∈ l, utf8Len c > CHARS_PER_TICKER ∧
      collectTickers f l = .error (.WrongSubscriptionString (f c)) := by
  induction l with
  | nil => simp at h
  | cons a rest ih =>
    by_cases ha : utf8Len a > CHARS_PER_TICKER
    · exact ⟨a, List.mem_cons_self a rest, ha, by simp only [collectTickers, if_pos ha]⟩
    · obtain ⟨c, hc, hclen⟩ := h
      rcases List.mem_cons.mp hc with rfl | hcrest
      · exact absurd hclen ha
      · obtain ⟨c', hc', hc'len, herr⟩ := ih ⟨c, hcrest, hclen⟩
        refine ⟨c', List.mem_cons_of_mem a hc', hc'len, ?_⟩
        simp only [collectTickers, if_neg ha, herr]

/-- `ShardMap::insert` followed by `get` of the same key finds the new record. -/
theorem cacheGet_cacheInsert (d : List (UserId × ClientMeta)) (id : UserId) (m : ClientMeta) :
    cacheGet (cacheInsert d id m) id = some m := by
  simp [cacheGet, cacheInsert]

/-- Overwriting through `get_mut` makes the new record visible to `get` of the
same key, provided the key was present. -/
theorem cacheGet_cacheSet (d : List (UserId × ClientMeta)) (id : UserId)
    (m m₀ : ClientMeta) (h : cacheGet d id = some m₀) :
    cacheGet (cacheSet d id m) id = some m := by
  induction d with
  | nil => simp [cacheGet] at h
  | cons p rest ih =>
    by_cases hp : p.1 = id
    · simp [cacheGet, cacheSet, hp]
    · simp only [cacheGet, cacheSet, List.map_cons, if_neg hp] at h ⊢
      exact ih h

/-- `update_db_entry` touches only the table rows and the write log. -/
theorem update_db_entry_frame (st : SysState) (id : UserId) (m : ClientMeta) :
    (update_db_entry st id m).cacheData = st.cacheData ∧
    (update_db_entry st id m).clients = st.clients ∧
    (update_db_entry st id m).channel = st.channel ∧
    (update_db_entry st id m).update_queue = st.update_queue ∧
    (update_db_entry st id m).dbLog = st.dbLog ++ [id] := by
  refine ⟨rfl, rfl, rfl, rfl, rfl⟩

/-- When every id of the drained snapshot has a cache entry, the flush loop
succeeds, writes each id through exactly once (in drain order), and leaves the
cache, client list, channel and queue untouched. -/
theorem flushList_ok (l : List UserId) : ∀ st : SysState,
    (∀ id ∈ l, (cacheGet st.cacheData id).isSome) →
    ∃ st', flushList st l = (.ok (), st')
      ∧ st'.update_queue = st.update_queue
      ∧ st'.dbLog = st.dbLog ++ l
      ∧ st'.cacheData = st.cacheData
      ∧ st'.clients = st.clients
      ∧ st'.channel = st.channel := by
  induction l with
  | nil => exact fun st _ => ⟨st, rfl, rfl, by simp, rfl, rfl, rfl⟩
  | cons i rest ih =>
    intro st h
    obtain ⟨meta, hmeta⟩ := Option.isSome_iff_exists.mp (h i (List.mem_cons_self i rest))
    have hrest : ∀ id ∈ rest, (cacheGet (update_db_entry st i meta).cacheData id).isSome := by
      intro id hid
      exact (update_db_entry_frame st i meta).1 ▸ h id (List.mem_cons_of_mem i hid)
    obtain ⟨st', hfl, hq, hlog, hcd, hcl, hch⟩ := ih (update_db_entry st i meta) hrest
    refine ⟨st', ?_, hq, ?_, hcd, hcl, hch⟩
    · simp only [flushList, hmeta]
      exact hfl
    · rw [hlog, (update_db_entry_frame st i meta).2.2.2.2, List.append_assoc]
      rfl

/-- An id in the drained snapshot with no cache entry makes the flush loop fail
with the fatal `CacheIncongruence` error. -/
theorem flushList_error (l : List UserId) : ∀ st : SysState,
    (∃ id ∈ l, cacheGet st.cacheData id = none) →
    (flushList st l).1 = .error .CacheIncongruence := by
  induction l with
  | nil => intro st h; simp at h
  | cons i rest ih =>
    intro st h
    cases hmeta : cacheGet st.cacheData i with
    | none => simp only [flushList, hmeta]
    | some meta =>
      obtain ⟨id, hid, hnone⟩ := h
      rcases List.mem_cons.mp hid with rfl | hidrest
      · rw [hmeta] at hnone; cases hnone
      · have : ∃ j ∈ rest, cacheGet (update_db_entry st i meta).cacheData j = none :=
          ⟨id, hidrest, (update_db_entry_frame st i meta).1 ▸ hnone⟩
        simp only [flushList, hmeta]
        exact ih (update_db_entry st i meta) this

/-! ### Concrete fixtures used by witnesses and counterexamples -/

/-- The empty system state: empty cache, key list, table, log, channel, queue. -/
def emptySys : SysState := ⟨[], [], [], [], [], []⟩

/-- A hard-registered record with no subscription set. -/
def regMetaNoSubs : ClientMeta := { ClientMeta.default with registered := true }

/-- A hard-registered record subscribed to the single ticker `SAN`. -/
def regMetaSAN : ClientMeta :=
  { ClientMeta.default with registered := true, subscriptions := some ⟨{"SAN".toList}⟩ }

/-- A system whose cache holds client 7 with no subscription set. -/
def sysNoSubs : SysState := ⟨[(7, regMetaNoSubs)], [7], [], [], [], []⟩

/-- A system whose cache holds client 7 subscribed to `SAN`. -/
def sysSAN : SysState := ⟨[(7, regMetaSAN)], [7], [], [], [], []⟩

/-! ### Claim theorems -/

/-- Claim C1, counterexample: the verb `save` parses to `Stop`, not `Save`
(likewise `load`), and `update:1:2` carries only the segment between the first
and second `:` rather than everything after the first `:`. -/
theorem cacheHandlerCmdFrom_counterexample :
    cacheHandlerCmdFrom "save".toList = CacheHandlerCmd.Stop ∧
    CacheHandlerCmd.Stop ≠ CacheHandlerCmd.Save ∧
    cacheHandlerCmdFrom "load".toList = CacheHandlerCmd.Stop ∧
    CacheHandlerCmd.Stop ≠ CacheHandlerCmd.Load ∧
    cacheHandlerCmdFrom "update:1:2".toList = CacheHandlerCmd.Update "1".toList ∧
    "1".toList ≠ "1:2".toList := by
  decide

/-- Claim C1 (amended): every input parses to exactly one of `Ping`,
`Update payload` or `Stop` — the parser never yields `Save` or `Load`; the verb
`ping` maps to `Ping`, `update` to `Update` carrying the segment between the
first and second `:` (empty when there is none), and every other verb,
`save`, `load` and `stop` included, maps to `Stop`. -/
theorem cacheHandlerCmdFrom_spec :
    (∀ s : List Char, cacheHandlerCmdFrom s = CacheHandlerCmd.Ping ∨
      (∃ p, cacheHandlerCmdFrom s = CacheHandlerCmd.Update p) ∨
      cacheHandlerCmdFrom s = CacheHandlerCmd.Stop) ∧
    cacheHandlerCmdFrom "ping".toList = CacheHandlerCmd.Ping ∧
    cacheHandlerCmdFrom "ping:x".toList = CacheHandlerCmd.Ping ∧
    cacheHandlerCmdFrom "update:42".toList = CacheHandlerCmd.Update "42".toList ∧
    cacheHandlerCmdFrom "update:1:2".toList = CacheHandlerCmd.Update "1".toList ∧
    cacheHandlerCmdFrom "update".toList = CacheHandlerCmd.Update [] ∧
    cacheHandlerCmdFrom "save".toList = CacheHandlerCmd.Stop ∧
    cacheHandlerCmdFrom "load".toList = CacheHandlerCmd.Stop ∧
    cacheHandlerCmdFrom "stop".toList = CacheHandlerCmd.Stop ∧
    cacheHandlerCmdFrom "".toList = CacheHandlerCmd.Stop := by
  refine ⟨?_, by decide, by decide, by decide, by decide, by decide, by decide,
    by decide, by decide, by decide⟩
  intro s
  simp only [cacheHandlerCmdFrom]
  split_ifs <;> simp

/-- Claim C2: a cache miss in `is_registered` returns `false` and lazily
soft-registers the id — a default (unregistered) row is appended to the durable
store, a default record lands in the cache, a maintenance notification is
enqueued and the id is appended to the key list; a second call on the same id
again returns `false` while changing nothing (in particular no second store
insert). -/
theorem is_registered_lazy_registration (st : SysState) (now now2 : Timestamp)
    (id : UserId) (h : cacheGet st.cacheData id = none) :
    ∃ st', is_registered st now id = (.ok false, st')
      ∧ cacheGet st'.cacheData id = some ClientMeta.default
      ∧ ClientMeta.default.registered = false
      ∧ st'.dbRows = st.dbRows ++ [(id, registerRow true now)]
      ∧ st'.channel = st.channel ++ [updateMsg id]
      ∧ st'.clients = st.clients ++ [id]
      ∧ is_registered st' now2 id = (.ok false, st') := by
  refine ⟨⟨cacheInsert st.cacheData id ClientMeta.default, st.clients ++ [id],
    st.dbRows ++ [(id, registerRow true now)], st.dbLog,
    st.channel ++ [updateMsg id], st.update_queue⟩, ?_, ?_, rfl, rfl, rfl, rfl, ?_⟩
  · simp only [is_registered, h, db_register_client, notify_cache_handler]
  · exact cacheGet_cacheInsert st.cacheData id ClientMeta.default
  · simp only [is_registered, cacheGet_cacheInsert]
    rfl

/-- Witness for C2 at the empty system and id 7. -/
theorem is_registered_lazy_registration_witness :
    ∃ st', is_registered emptySys 0 7 = (.ok false, st')
      ∧ cacheGet st'.cacheData 7 = some ClientMeta.default
      ∧ ClientMeta.default.registered = false
      ∧ st'.dbRows = emptySys.dbRows ++ [(7, registerRow true 0)]
      ∧ st'.channel = emptySys.channel ++ [updateMsg 7]
      ∧ st'.clients = emptySys.clients ++ [7]
      ∧ is_registered st' 0 7 = (.ok false, st') :=
  is_registered_lazy_registration emptySys 0 0 7 rfl

/-- Claim C7: `access_level` on an id absent from the cache returns the `Free`
tier and returns the state exactly as it was — no record inserted, no key
appended, no notification sent, no lazy registration. -/
theorem access_level_absent (st : SysState) (id : UserId)
    (h : cacheGet st.cacheData id = none) :
    access_level st id = (.ok BotAccess.Free, st) := by
  simp only [access_level, h]

/-- Witness for C7 at the empty system and id 9. -/
theorem access_level_absent_witness :
    access_level emptySys 9 = (.ok BotAccess.Free, emptySys) :=
  access_level_absent emptySys 9 rfl

/-- Claim C10: `remove_subscriptions` on a cached client whose subscription
field is `None` succeeds, leaves the whole state (record, cache, channel)
untouched and enqueues no maintenance notification. -/
theorem remove_subscriptions_no_subs (st : SysState) (id : UserId)
    (meta : ClientMeta) (subs : Subscriptions)
    (h1 : cacheGet st.cacheData id = some meta) (h2 : meta.subscriptions = none) :
    remove_subscriptions st id subs = (.ok (), st) := by
  simp only [remove_subscriptions, h1, h2]

/-- Witness for C10: client 7 is cached without subscriptions; removing `SAN`
succeeds and changes nothing. -/
theorem remove_subscriptions_no_subs_witness :
    remove_subscriptions sysNoSubs 7 ⟨{"SAN".toList}⟩ = (.ok (), sysNoSubs) :=
  remove_subscriptions_no_subs sysNoSubs 7 regMetaNoSubs ⟨{"SAN".toList}⟩ rfl rfl

/-- Claim C8, counterexample: a configured refresh interval of 30 minutes is
handed to the constructed handler unchanged — below the claimed 60-minute
floor, so no clamping happens at construction. -/
theorem buildCacheExpiricy_counterexample :
    buildCacheExpiricy { ClientObjectsBuilder.new with cache_expiricy := some 30 } = 30 ∧
    (30 : Int) < 60 := by
  exact ⟨rfl, by decide⟩

/-- Claim C8 (amended): `ClientObjectsBuilder::build` applies no minimum floor
to the cache-refresh interval: an unset interval falls back to the 1-day
default (1440 minutes) and a configured interval — the builder exposes no
setter for it — would pass through unchanged, however small. -/
theorem buildCacheExpiricy_passthrough :
    DEFAULT_CACHE_EXPIRICY = 1440 ∧
    buildCacheExpiricy ClientObjectsBuilder.new = DEFAULT_CACHE_EXPIRICY ∧
    ∀ d : Int, buildCacheExpiricy { ClientObjectsBuilder.new with cache_expiricy := some d } = d :=
  ⟨rfl, rfl, fun _ => rfl⟩

/-- A system whose queue holds id 7 and whose cache and table know id 7. -/
def sysQueue : SysState := ⟨[(7, regMetaNoSubs)], [7], [(7, registerRow false 0)], [], [], [7]⟩

/-- A system whose queue holds id 5 but whose cache is empty. -/
def sysQueueBad : SysState := ⟨[], [], [], [], [], [5]⟩

/-- Claim C3: `process_queue` swaps the queue for an empty one before flushing,
so ids arriving during the flush form exactly the new queue (neither lost nor
flushed in this round); every drained id with a cache entry is written through
to the store exactly once, in drain order, with the cache, key list and channel
untouched; and a drained id with no cache entry aborts the run with the fatal
`CacheIncongruence` error instead of being skipped. -/
theorem process_queue_spec (st : SysState) (arrivals : List UserId) :
    ((∀ id ∈ st.update_queue, (cacheGet st.cacheData id).isSome) →
      ∃ st', process_queue st arrivals = (.ok (), st')
        ∧ st'.update_queue = arrivals
        ∧ st'.dbLog = st.dbLog ++ st.update_queue
        ∧ st'.cacheData = st.cacheData
        ∧ st'.clients = st.clients
        ∧ st'.channel = st.channel) ∧
    ((∃ id ∈ st.update_queue, cacheGet st.cacheData id = none) →
      (process_queue st arrivals).1 = .error .CacheIncongruence) := by
  constructor
  · intro h
    obtain ⟨st', h1, h2, h3, h4, h5, h6⟩ :=
      flushList_ok st.update_queue { st with update_queue := arrivals } h
    exact ⟨st', h1, h2, h3, h4, h5, h6⟩
  · intro h
    exact flushList_error st.update_queue { st with update_queue := arrivals } h

/-- Witness for C3: a queued id with a cache entry is flushed once and the
arrival becomes the new queue; a queued id without a cache entry yields
`CacheIncongruence`. -/
theorem process_queue_spec_witness :
    (∃ st', process_queue sysQueue [9] = (.ok (), st')
      ∧ st'.update_queue = [9]
      ∧ st'.dbLog = sysQueue.dbLog ++ sysQueue.update_queue
      ∧ st'.cacheData = sysQueue.cacheData
      ∧ st'.clients = sysQueue.clients
      ∧ st'.channel = sysQueue.channel) ∧
    (process_queue sysQueueBad []).1 = .error .CacheIncongruence :=
  ⟨(process_queue_spec sysQueue [9]).1 (by decide),
   (process_queue_spec sysQueueBad []).2 ⟨5, by decide, rfl⟩⟩

/-- The single-ticker set `{SAN}`. -/
def subsSAN : Subscriptions := ⟨{"SAN".toList}⟩

/-- The single-ticker set `{REP}`. -/
def subsREP : Subscriptions := ⟨{"REP".toList}⟩

/-- Claim C4, counterexample: adding `REP` to client 7, who already holds the
set `{SAN}`, succeeds and mutates the cached record, yet enqueues no
maintenance notification — the `+=` branch of `add_subscriptions` sends
nothing, so not every successful mutation notifies. -/
theorem add_subscriptions_counterexample :
    (add_subscriptions sysSAN 7 subsREP).1 = .ok () ∧
    (add_subscriptions sysSAN 7 subsREP).2.channel = sysSAN.channel ∧
    cacheGet (add_subscriptions sysSAN 7 subsREP).2.cacheData 7 ≠
      cacheGet sysSAN.cacheData 7 := by
  decide

/-- Claim C4 (amended): on an id absent from the cache both operations fail
with `ClientNotRegistered` and leave the state untouched; on a cached record,
`add_subscriptions` stores the given set and notifies when no set existed, and
otherwise mutates with `+=` (set union) **without** notifying, while
`remove_subscriptions` on an existing set mutates with `-=` (set difference)
and notifies. -/
theorem add_remove_subscriptions_spec (st : SysState) (id : UserId)
    (subs : Subscriptions) :
    (cacheGet st.cacheData id = none →
      add_subscriptions st id subs = (.error .ClientNotRegistered, st) ∧
      remove_subscriptions st id subs = (.error .ClientNotRegistered, st)) ∧
    (∀ meta, cacheGet st.cacheData id = some meta → meta.subscriptions = none →
      ∃ st₁, add_subscriptions st id subs = (.ok (), st₁)
        ∧ cacheGet st₁.cacheData id = some { meta with subscriptions := some subs }
        ∧ st₁.channel = st.channel ++ [updateMsg id]) ∧
    (∀ meta s₀, cacheGet st.cacheData id = some meta → meta.subscriptions = some s₀ →
      (∃ st₁, add_subscriptions st id subs = (.ok (), st₁)
        ∧ (∃ m₁, cacheGet st₁.cacheData id = some m₁
            ∧ m₁.subscriptions = some (s₀.addAssign subs)
            ∧ ∀ t, t ∈ (s₀.addAssign subs).tickers ↔
                t ∈ s₀.tickers ∨ t ∈ subs.tickers)
        ∧ st₁.channel = st.channel) ∧
      (∃ st₂, remove_subscriptions st id subs = (.ok (), st₂)
        ∧ (∃ m₂, cacheGet st₂.cacheData id = some m₂
            ∧ m₂.subscriptions =
                (if (s₀.subAssign subs).isEmpty then none else some (s₀.subAssign subs))
            ∧ ∀ t, t ∈ (s₀.subAssign subs).tickers ↔
                t ∈ s₀.tickers ∧ t ∉ subs.tickers)
        ∧ st₂.channel = st.channel ++ [updateMsg id])) := by
  refine ⟨?_, ?_, ?_⟩
  · intro h
    exact ⟨by simp only [add_subscriptions, h], by simp only [remove_subscriptions, h]⟩
  · intro meta h hnone
    refine ⟨{ st with
        cacheData := cacheSet st.cacheData id { meta with subscriptions := some subs },
        channel := st.channel ++ [updateMsg id] }, ?_, ?_, rfl⟩
    · simp only [add_subscriptions, h, hnone, notify_cache_handler]
    · exact cacheGet_cacheSet st.cacheData id _ meta h
  · intro meta s₀ h hsome
    constructor
    · refine ⟨{ st with
          cacheData := cacheSet st.cacheData id
            { meta with subscriptions := some (s₀.addAssign subs) } }, ?_,
        ⟨_, cacheGet_cacheSet st.cacheData id _ meta h, rfl,
          fun t => Finset.mem_union⟩, rfl⟩
      simp only [add_subscriptions, h, hsome]
    · refine ⟨{ st with
          cacheData := cacheSet st.cacheData id
            { meta with subscriptions :=
                if (s₀.subAssign subs).isEmpty then none else some (s₀.subAssign subs) },
          channel := st.channel ++ [updateMsg id] }, ?_,
        ⟨_, cacheGet_cacheSet st.cacheData id _ meta h, rfl,
          fun t => Finset.mem_sdiff⟩, rfl⟩
      simp only [remove_subscriptions, h, hsome, notify_cache_handler]

/-- Witness for C4 at three concrete inputs: an absent id (3), a cached record
without subscriptions (7 in `sysNoSubs`), and a cached record holding `{SAN}`
(7 in `sysSAN`). -/
theorem add_remove_subscriptions_spec_witness :
    (add_subscriptions emptySys 3 subsREP = (.error .ClientNotRegistered, emptySys) ∧
     remove_subscriptions emptySys 3 subsREP = (.error .ClientNotRegistered, emptySys)) ∧
    (∃ st₁, add_subscriptions sysNoSubs 7 subsREP = (.ok (), st₁)
      ∧ cacheGet st₁.cacheData 7 =
          some { regMetaNoSubs with subscriptions := some subsREP }
      ∧ st₁.channel = sysNoSubs.channel ++ [updateMsg 7]) ∧
    (∃ st₂, remove_subscriptions sysSAN 7 subsREP = (.ok (), st₂)
      ∧ (∃ m₂, cacheGet st₂.cacheData 7 = some m₂
          ∧ m₂.subscriptions =
              (if (subsSAN.subAssign subsREP).isEmpty then none
               else some (subsSAN.subAssign subsREP))
          ∧ ∀ t, t ∈ (subsSAN.subAssign subsREP).tickers ↔
              t ∈ subsSAN.tickers ∧ t ∉ subsREP.tickers)
      ∧ st₂.channel = sysSAN.channel ++ [updateMsg 7]) :=
  ⟨(add_remove_subscriptions_spec emptySys 3 subsREP).1 rfl,
   (add_remove_subscriptions_spec sysNoSubs 7 subsREP).2.1 regMetaNoSubs rfl rfl,
   ((add_remove_subscriptions_spec sysSAN 7 subsREP).2.2 regMetaSAN subsSAN rfl rfl).2⟩

/-- Claim C5: when `remove_subscriptions` empties a registered client's
subscription set, the record's subscription field collapses to `None` (not an
empty-but-present set) and a subsequent `subscriptions` read returns `None`. -/
theorem remove_subscriptions_collapse (st : SysState) (id : UserId)
    (meta : ClientMeta) (s₀ subs : Subscriptions)
    (h1 : cacheGet st.cacheData id = some meta) (h2 : meta.subscriptions = some s₀)
    (h3 : (s₀.subAssign subs).tickers = ∅) :
    ∃ st', remove_subscriptions st id subs = (.ok (), st')
      ∧ (∃ m', cacheGet st'.cacheData id = some m' ∧ m'.subscriptions = none)
      ∧ subscriptionsOf st' id = (.ok none, st') := by
  have hempty : (s₀.subAssign subs).isEmpty = true := by
    simp [Subscriptions.isEmpty, h3]
  refine ⟨{ st with
      cacheData := cacheSet st.cacheData id
        { meta with subscriptions := (none : Option Subscriptions) },
      channel := st.channel ++ [updateMsg id] }, ?_,
    ⟨_, cacheGet_cacheSet st.cacheData id _ meta h1, rfl⟩, ?_⟩
  · simp only [remove_subscriptions, h1, h2, hempty, notify_cache_handler, if_pos]
  · simp only [subscriptionsOf, cacheGet_cacheSet st.cacheData id _ meta h1]

/-- Witness for C5: client 7 holds exactly `{SAN}`; removing `SAN` collapses
the field to `None` and the read returns `None`. -/
theorem remove_subscriptions_collapse_witness :
    ∃ st', remove_subscriptions sysSAN 7 subsSAN = (.ok (), st')
      ∧ (∃ m', cacheGet st'.cacheData 7 = some m' ∧ m'.subscriptions = none)
      ∧ subscriptionsOf st' 7 = (.ok none, st') :=
  remove_subscriptions_collapse sysSAN 7 regMetaSAN subsSAN subsSAN rfl rfl (by decide)

/-- Claim C6, counterexample: serializing the empty token set gives the empty
string, which parses back to the singleton set containing the empty token —
not the empty set — so the round-trip fails for at least one duplicate-free set
of valid (at most 4 characters long) tokens. -/
theorem subscriptions_roundtrip_counterexample :
    Subscriptions.tryFromStr (Subscriptions.toStr ⟨∅⟩) = .ok ⟨{([] : List Char)}⟩ ∧
    Subscriptions.mk {([] : List Char)} ≠ ⟨∅⟩ := by
  have h : Subscriptions.toStr ⟨∅⟩ = [] := by
    simp [Subscriptions.toStr, joinWithSep]
  exact ⟨by rw [h]; decide, by decide⟩

/-- Claim C6 (amended): for every *nonempty* set of tokens of at most 4 UTF-8
bytes none of which contains the `;` separator, parsing the canonical
semicolon-joined serialization reproduces exactly the same set, independent of
the enumeration order of the underlying set. -/
theorem tryFromStr_toStr_roundtrip (s : Finset (List Char)) (hne : s.Nonempty)
    (hlen : ∀ t ∈ s, utf8Len t ≤ CHARS_PER_TICKER)
    (hsep : ∀ t ∈ s, ';' ∉ t) :
    Subscriptions.tryFromStr (Subscriptions.toStr ⟨s⟩) = .ok ⟨s⟩ := by
  have hsortne : s.sort (· ≤ ·) ≠ [] := by
    intro hnil
    have h1 : (s.sort (· ≤ ·)).length = s.card := Finset.length_sort _
    rw [hnil] at h1
    exact absurd h1.symm (Nat.pos_iff_ne_zero.mp hne.card_pos)
  have hmem : ∀ x ∈ s.sort (· ≤ ·), ';' ∉ x :=
    fun x hx => hsep x ((Finset.mem_sort _).mp hx)
  have hlen' : ∀ c ∈ s.sort (· ≤ ·), utf8Len c ≤ CHARS_PER_TICKER :=
    fun c hc => hlen c ((Finset.mem_sort _).mp hc)
  unfold Subscriptions.tryFromStr Subscriptions.toStr
  rw [splitOnSep_joinWithSep ';' _ hsortne hmem, collectTickers_ok _ _ hlen',
    Finset.sort_toFinset]

/-- Witness for C6 at the singleton set `{SAN}`. -/
theorem tryFromStr_toStr_roundtrip_witness :
    Subscriptions.tryFromStr (Subscriptions.toStr ⟨{"SAN".toList}⟩) =
      .ok ⟨{"SAN".toList}⟩ :=
  tryFromStr_toStr_roundtrip {"SAN".toList} ⟨"SAN".toList, by decide⟩
    (by decide) (by decide)

/-- Claim C9, counterexample: the length limit of the constructors is 4 UTF-8
*bytes*, not 4 characters — the 3-character token `ñññ` (6 bytes) is rejected
with a format error even though no element is longer than 4 characters. -/
theorem tryFrom_length_counterexample :
    ("ñññ".toList).length = 3 ∧
    Subscriptions.tryFromSlice ["ñññ".toList] =
      .error (.WrongSubscriptionString "ñññ".toList) ∧
    utf8Len "ñññ".toList = 6 := by
  decide

/-- Claim C9 (amended): both constructors fail with a format error — carrying
the offending token (slice form) or the whole input (string form) — exactly
when some element exceeds 4 UTF-8 bytes (4 characters for ASCII tokens), and
construct nothing; when every element is within the byte limit they succeed,
duplicates collapsing into the set of distinct tokens. -/
theorem tryFrom_byte_limit_spec (l : List (List Char)) (v : List Char) :
    ((∃ c ∈ l, utf8Len c > CHARS_PER_TICKER) →
      ∃ c ∈ l, utf8Len c > CHARS_PER_TICKER ∧
        Subscriptions.tryFromSlice l = .error (.WrongSubscriptionString c)) ∧
    ((∀ c ∈ l, utf8Len c ≤ CHARS_PER_TICKER) →
      Subscriptions.tryFromSlice l = .ok ⟨l.toFinset⟩) ∧
    ((∃ c ∈ splitOnSep ';' v, utf8Len c > CHARS_PER_TICKER) →
      Subscriptions.tryFromStr v = .error (.WrongSubscriptionString v)) ∧
    ((∀ c ∈ splitOnSep ';' v, utf8Len c ≤ CHARS_PER_TICKER) →
      Subscriptions.tryFromStr v = .ok ⟨(splitOnSep ';' v).toFinset⟩) := by
  refine ⟨?_, ?_, ?_, ?_⟩
  · intro h
    obtain ⟨c, hc, hclen, herr⟩ := collectTickers_error (fun c => c) l h
    exact ⟨c, hc, hclen, by simp only [Subscriptions.tryFromSlice, herr]⟩
  · intro h
    simp only [Subscriptions.tryFromSlice, collectTickers_ok _ _ h]
  · intro h
    obtain ⟨c, hc, hclen, herr⟩ := collectTickers_error (fun _ => v) (splitOnSep ';' v) h
    simp only [Subscriptions.tryFromStr, herr]
  · intro h
    simp only [Subscriptions.tryFromStr, collectTickers_ok _ _ h]

/-- Witness for C9: the 5-byte token `TELEF` is rejected by both constructors,
while `SAN;REP` parses and the duplicate list `[SAN, SAN]` collapses to the
singleton set. -/
theorem tryFrom_byte_limit_spec_witness :
    (∃ c ∈ ["TELEF".toList], utf8Len c > CHARS_PER_TICKER ∧
      Subscriptions.tryFromSlice ["TELEF".toList] =
        .error (.WrongSubscriptionString c)) ∧
    Subscriptions.tryFromSlice ["SAN".toList, "SAN".toList] =
      .ok ⟨["SAN".toList, "SAN".toList].toFinset⟩ ∧
    Subscriptions.tryFromStr "SAN;TELEF".toList =
      .error (.WrongSubscriptionString "SAN;TELEF".toList) ∧
    Subscriptions.tryFromStr "SAN;REP".toList =
      .ok ⟨(splitOnSep ';' "SAN;REP".toList).toFinset⟩ ∧
    (["SAN".toList, "SAN".toList].toFinset : Finset (List Char)) = {"SAN".toList} :=
  ⟨(tryFrom_byte_limit_spec ["TELEF".toList] []).1 ⟨"TELEF".toList, by decide, by decide⟩,
   (tryFrom_byte_limit_spec ["SAN".toList, "SAN".toList] []).2.1 (by decide),
   (tryFrom_byte_limit_spec [] "SAN;TELEF".toList).2.2.1
     ⟨"TELEF".toList, by decide, by decide⟩,
   (tryFrom_byte_limit_spec [] "SAN;REP".toList).2.2.2 (by decide),
   by decide⟩
